import Mathlib

/-!
Verification development for the DAPOM per-session energy-management
optimizer.  The Python sources are embedded shallowly:

* `utils.py` — `get_departure_times` over the 0/1 truck-availability column;
* `build_model.py` — the per-session linear model: decision-variable bounds
  (`create_decision_variables`), constraints (`add_constraints`) and the
  objective (`set_objective`), together with column validation
  (`validate_data` / `build_model`);
* `analysis.py` — `run_sessions` (session loop with NaN-safe totals, modelled
  with `Option`) and `experiment_grid_capacity` (grid-capacity sweep, with
  Python division by zero modelled as `none`).

Floats are modelled as rationals.  The external Gurobi solver is modelled as
an oracle returning a status code and a point; status `2` is `GRB.OPTIMAL`.
-/

/-- One row of the input time series: the `Truck`, `Solar_production_kWh`,
`Energy_consumption_kWh` and `Price_per_kWh` columns.  The truck flag is kept
as a number because the Python code uses it arithmetically
(`Qb_max * truck[t]`) and compares it with `== 1`. -/
structure Record where
  truck : ℚ
  solar : ℚ
  load : ℚ
  price : ℚ
deriving DecidableEq

instance : Inhabited Record := ⟨⟨0, 0, 0, 0⟩⟩

/-- The parameter dictionary of `build_model.py`. -/
structure Params where
  Xmax : ℚ
  Qb_max : ℚ
  Qg_max : ℚ
  kappa : ℚ
  v_target : ℚ
  X0 : ℚ
deriving DecidableEq

/-- The function `get_default_parameters` from `build_model.py`. -/
def getDefaultParameters : Params :=
  { Xmax := 400, Qb_max := 100, Qg_max := 535, kappa := 1000,
    v_target := 4/5, X0 := 0 }

/-- The decision variables of one session model: `b`, `x`, `g`, `a` indexed by
time step, plus the scalar `gamma`.  Indices at or beyond the session length
are unconstrained. -/
structure EMSVars where
  b : ℕ → ℚ
  x : ℕ → ℚ
  g : ℕ → ℚ
  a : ℕ → ℚ
  gamma : ℚ

/-- The all-zero assignment. -/
def zeroVars : EMSVars :=
  { b := fun _ => 0, x := fun _ => 0, g := fun _ => 0, a := fun _ => 0,
    gamma := 0 }

/-- Entry `t` of the `Truck` column of a session slice. -/
def colTruck (data : List Record) (t : ℕ) : ℚ := (data.getD t default).truck

/-- Entry `t` of the `Solar_production_kWh` column of a session slice. -/
def colSolar (data : List Record) (t : ℕ) : ℚ := (data.getD t default).solar

/-- Entry `t` of the `Energy_consumption_kWh` column of a session slice. -/
def colLoad (data : List Record) (t : ℕ) : ℚ := (data.getD t default).load

/-- Entry `t` of the `Price_per_kWh` column of a session slice. -/
def colPrice (data : List Record) (t : ℕ) : ℚ := (data.getD t default).price

/-- The function `get_departure_times` from `utils.py`, on the `Truck` column
(a list of rationals, normally 0/1).  The Python loop `for i in range(1, len)`
appends `i - 1` whenever `truck[i-1] == 1 and truck[i] == 0`; afterwards the
final index is appended when `truck.iloc[-1] == 1`.  On an empty column the
Python code raises (`iloc[-1]` on an empty series); this embedding is only
used for nonempty columns, where `getD (length - 1) 0` is exactly
`iloc[-1]`. -/
def getDepartureTimes (truck : List ℚ) : List ℕ :=
  let departures := (List.range' 1 (truck.length - 1)).filterMap fun i =>
    if truck.getD (i - 1) 0 = 1 ∧ truck.getD i 0 = 0 then some (i - 1) else none
  if truck.getD (truck.length - 1) 0 = 1 then departures ++ [truck.length - 1]
  else departures

/-- The departure rule as the specification words it, over a boolean
connectivity sequence: the indices `i` with `connected[i]` true and
`connected[i+1]` false, plus the final index whenever the last element is
connected, in increasing order. -/
def departuresSpec (conn : List Bool) : List ℕ :=
  (List.range conn.length).filter fun i =>
    if i + 1 < conn.length then conn.getD i false && !conn.getD (i + 1) false
    else conn.getD i false

/-- The 0/1 `Truck` column induced by a boolean connectivity sequence. -/
def boolFlag (conn : List Bool) : List ℚ :=
  conn.map fun c => if c then 1 else 0

/-- Feasibility of an assignment for the session model built by `build_model`
on slice `data` with parameters `p`: the variable bounds declared in
`create_decision_variables` together with the constraints of
`add_constraints`.  Field names follow the Gurobi constraint names in the
source; note that the SoC dynamics equation is only added when the truck is
connected at step `t`, and that `x[t] == 0` is added instead when it is
not. -/
structure Feasible (data : List Record) (p : Params) (v : EMSVars) : Prop where
  b_lb : ∀ t < data.length, -p.Qb_max ≤ v.b t
  b_ub : ∀ t < data.length, v.b t ≤ p.Qb_max
  x_lb : ∀ t < data.length, 0 ≤ v.x t
  g_lb : ∀ t < data.length, -p.Qg_max ≤ v.g t
  g_ub : ∀ t < data.length, v.g t ≤ p.Qg_max
  a_lb : ∀ t < data.length, 0 ≤ v.a t
  a_ub : ∀ t < data.length, v.a t ≤ colSolar data t
  gamma_lb : 0 ≤ v.gamma
  charge_limit : ∀ t < data.length, v.b t ≤ p.Qb_max * colTruck data t
  discharge_limit : ∀ t < data.length, -(p.Qb_max * colTruck data t) ≤ v.b t
  soc_start : v.x 0 = p.X0 + v.b 0 * colTruck data 0
  soc_dyn : ∀ t < data.length, 1 ≤ t → colTruck data t = 1 →
    v.x t = v.x (t - 1) + v.b t
  soc_reset : ∀ t < data.length, 1 ≤ t → colTruck data t ≠ 1 → v.x t = 0
  curtail : ∀ t < data.length, v.a t ≤ colSolar data t
  balance : ∀ t < data.length,
    colLoad data t + v.b t + v.a t = colSolar data t + v.g t
  soc_target : v.x (data.length - 1) ≥ p.v_target * p.Xmax - v.gamma

/-- The objective set by `set_objective`:
`sum(price[t] * g[t] for t in range(T)) + kappa * gamma`. -/
def emsObjective (data : List Record) (p : Params) (v : EMSVars) : ℚ :=
  ((List.range data.length).map fun t => colPrice data t * v.g t).sum
    + p.kappa * v.gamma

/-- An assignment that is feasible and minimizes the objective among all
feasible assignments — what Gurobi returns with status `GRB.OPTIMAL`. -/
def OptimalPoint (data : List Record) (p : Params) (v : EMSVars) : Prop :=
  Feasible data p v ∧
    ∀ w, Feasible data p w → emsObjective data p v ≤ emsObjective data p w

/-- A solver answer: a Gurobi status code (`2` is optimal) and the point the
model variables hold after `optimize`. -/
structure SolveResult where
  status : ℕ
  point : EMSVars

/-- The external solver, abstracted: given a session slice and parameters it
returns a status and a point. -/
def Oracle : Type := List Record → Params → SolveResult

/-- The expression `data.iloc[start : stop + 1]` — the session slice for
session bounds `(start, stop)`. -/
def sessionSlice (data : List Record) (start stop : ℕ) : List Record :=
  (data.drop start).take (stop + 1 - start)

/-- One entry of `session_metrics` in `run_sessions`: `objval` and `gamma` are
`none` when the Python code stores `math.nan` (non-optimal status). -/
structure SessionMetric where
  session_start : ℕ
  session_end : ℕ
  objval : Option ℚ
  gammaVal : Option ℚ
deriving DecidableEq

/-- The dictionary returned by `run_sessions`. -/
structure RunResult where
  total_cost : ℚ
  total_gamma : ℚ
  session_metrics : List SessionMetric
deriving DecidableEq

/-- The session loop of `run_sessions` (`analysis.py`): for each departure,
slice `data.iloc[start_session : dep + 1]`, solve, add the objective value and
gamma to the running totals when the status is optimal (`2`) and record them
(`none` standing for `math.nan` otherwise), then continue from `dep + 1`.
Reading `model.ObjVal` is modelled as evaluating the objective at the solver
point. -/
def runSessionsAux (data : List Record) (p : Params) (oracle : Oracle) :
    List ℕ → ℕ → RunResult
  | [], _ => ⟨0, 0, []⟩
  | dep :: rest, start =>
      let sess := sessionSlice data start dep
      let r := oracle sess p
      let objval : Option ℚ :=
        if r.status = 2 then some (emsObjective sess p r.point) else none
      let gv : Option ℚ := if r.status = 2 then some r.point.gamma else none
      let acc := runSessionsAux data p oracle rest (dep + 1)
      ⟨objval.getD 0 + acc.total_cost, gv.getD 0 + acc.total_gamma,
        ⟨start, dep, objval, gv⟩ :: acc.session_metrics⟩

/-- The function `run_sessions` from `analysis.py`: departures are computed
from the `Truck` column and the session loop starts at index 0. -/
def runSessions (data : List Record) (p : Params) (oracle : Oracle) :
    RunResult :=
  runSessionsAux data p oracle (getDepartureTimes (data.map Record.truck)) 0

/-- The `(start_session, dep)` pairs produced by the session loops of
`main.py` and `analysis.py`: the first session starts at index 0, each next
one at the previous departure plus one. -/
def sessionBoundsAux : List ℕ → ℕ → List (ℕ × ℕ)
  | [], _ => []
  | dep :: rest, start => (start, dep) :: sessionBoundsAux rest (dep + 1)

/-- Session bounds for a departure list, starting at index 0. -/
def sessionBounds (departures : List ℕ) : List (ℕ × ℕ) :=
  sessionBoundsAux departures 0

/-- The session slices visited by `run_sessions`, in order. -/
def sessionSlicesAux (data : List Record) : List ℕ → ℕ → List (List Record)
  | [], _ => []
  | dep :: rest, start =>
      sessionSlice data start dep :: sessionSlicesAux data rest (dep + 1)

/-- All session slices of a dataset, as visited by `run_sessions`. -/
def sessionSlices (data : List Record) : List (List Record) :=
  sessionSlicesAux data (getDepartureTimes (data.map Record.truck)) 0

/-- The `required_columns` list of `validate_data` in `build_model.py`. -/
def requiredColumns : List String :=
  ["Truck", "Solar_production_kWh", "Energy_consumption_kWh", "Price_per_kWh"]

/-- The ways `build_model` can raise: the `ValueError` of `validate_data` for
the first missing required column, and the `KeyError` raised by
`add_constraints` on an empty slice (with `T = 0`, `model.addVars(0)` creates
an empty variable dictionary and the lookup `x[0]` in the `soc_start`
constraint fails). -/
inductive BuildError where
  | missingColumn (col : String)
  | emptyKey
deriving DecidableEq

/-- A pandas data frame as far as `build_model` observes it: a column list
and the typed rows. -/
structure Frame where
  columns : List String
  records : List Record

/-- The function `validate_data` from `build_model.py`: the loop raises
`ValueError` at the first required column missing from `data.columns`. -/
def validateData (cols : List String) : Except BuildError Unit :=
  match requiredColumns.find? (fun c => !cols.contains c) with
  | some c => .error (.missingColumn c)
  | none => .ok ()

/-- The function `build_model` from `build_model.py`, with its error
behaviour: it validates the columns first, then builds variables and
constraints.  On an empty slice the construction itself raises (`x[0]` on the
empty variable dictionary); on success the model is determined by the slice
and the parameters, which is what the feasibility predicate and objective
consume. -/
def buildModelE (f : Frame) (p : Params) :
    Except BuildError (List Record × Params) :=
  match validateData f.columns with
  | .error e => .error e
  | .ok _ =>
    if f.records.length = 0 then .error .emptyKey
    else .ok (f.records, p)

/-- Python float division, which raises `ZeroDivisionError` on a zero
divisor; the error is modelled as `none`. -/
def pyDiv (a b : ℚ) : Option ℚ := if b = 0 then none else some (a / b)

/-- One result row of `experiment_grid_capacity`. -/
structure GridRow where
  Qg_val : ℚ
  avg_gamma : ℚ
  avg_miss_fraction : Option ℚ
  avg_cost : ℚ
deriving DecidableEq

/-- The function `experiment_grid_capacity` from `analysis.py`: for each swept
value, deep-copy the base parameters, overwrite `Qg_max`, run the sessions,
and compute `avg_gamma = total_gamma / max(1, session_count)`,
`avg_fraction = avg_gamma / (v_target * Xmax)` (an unguarded division) and
`avg_cost = total_cost / max(1, session_count)`. -/
def experimentGridCapacity (data : List Record) (base : Params) (qgs : List ℚ)
    (oracle : Oracle) : List GridRow :=
  qgs.map fun qg =>
    let p := { base with Qg_max := qg }
    let res := runSessions data p oracle
    let cnt : ℚ := ((max 1 res.session_metrics.length : ℕ) : ℚ)
    let avg_gamma := res.total_gamma / cnt
    ⟨qg, avg_gamma, pyDiv avg_gamma (p.v_target * p.Xmax),
      res.total_cost / cnt⟩

/-- Two parameter sets that agree on everything except possibly the grid
power limit `Qg_max`. -/
def eqExceptQg (p1 p2 : Params) : Prop :=
  p1.Xmax = p2.Xmax ∧ p1.Qb_max = p2.Qb_max ∧ p1.kappa = p2.kappa ∧
  p1.v_target = p2.v_target ∧ p1.X0 = p2.X0

/-- A four-step dataset whose truck column is `[1, 0, 0, 1]`; its second
session slice contains two disconnected steps. -/
def dataFull24 : List Record :=
  [⟨1, 0, 0, 0⟩, ⟨0, 0, 0, 0⟩, ⟨0, 0, 0, 0⟩, ⟨1, 0, 0, 0⟩]

/-- The second session slice of `dataFull24`: truck column `[0, 0, 1]`. -/
def dataC2 : List Record := [⟨0, 0, 0, 0⟩, ⟨0, 0, 0, 0⟩, ⟨1, 0, 0, 0⟩]

/-- Parameters with a nonzero initial state of charge, used on `dataC2`. -/
def paramsC2 : Params :=
  { Xmax := 100, Qb_max := 100, Qg_max := 100, kappa := 1, v_target := 1/2,
    X0 := 1 }

/-- An assignment for the `dataC2` model: charge only at the final connected
step; the state of charge resets to zero at the disconnected step 1. -/
def pointC2 : EMSVars :=
  { b := fun t => if t = 2 then 50 else 0,
    x := fun t => if t = 0 then 1 else if t = 2 then 50 else 0,
    g := fun t => if t = 2 then 50 else 0,
    a := fun _ => 0, gamma := 0 }

/-- A one-step fully connected dataset with no solar, load or price. -/
def dataW2 : List Record := [⟨1, 0, 0, 0⟩]

/-- The default parameters with the state-of-charge target set to zero. -/
def paramsW2 : Params :=
  { Xmax := 400, Qb_max := 100, Qg_max := 535, kappa := 1000, v_target := 0,
    X0 := 0 }

/-- A one-step dataset with solar 2, load 3, price 5. -/
def dataW3 : List Record := [⟨1, 2, 3, 5⟩]

/-- A feasible point for the `dataW3` model: import one unit from the grid.
-/
def pointW3 : EMSVars :=
  { b := fun _ => 0, x := fun _ => 0, g := fun _ => 1, a := fun _ => 0,
    gamma := 0 }

/-- Parameters with `kappa = 0`: the shortfall is not penalized, so optimal
solutions need not have a tight `gamma`. -/
def paramsC5 : Params :=
  { Xmax := 400, Qb_max := 100, Qg_max := 535, kappa := 0, v_target := 0,
    X0 := 0 }

/-- The all-zero point with a gratuitous `gamma = 5`. -/
def pointC5 : EMSVars := { zeroVars with gamma := 5 }

/-- Parameters with a strictly positive penalty `kappa = 1`. -/
def paramsW5 : Params :=
  { Xmax := 400, Qb_max := 100, Qg_max := 535, kappa := 1, v_target := 0,
    X0 := 0 }

/-- A solver that always reports status 3 (infeasible). -/
def oracle3 : Oracle := fun _ _ => ⟨3, zeroVars⟩

/-- A frame that is missing the `Truck`, `Energy_consumption_kWh` and
`Price_per_kWh` columns but has one data row. -/
def frameW9 : Frame := ⟨["Solar_production_kWh"], [⟨1, 0, 0, 0⟩]⟩

/-- A one-step dataset with load 1000 and no solar: serving the load needs
more grid power than a small `Qg_max` allows. -/
def dataA : List Record := [⟨1, 0, 1000, 1⟩]

/-- Parameters making the `dataA` session model infeasible
(`Qg_max = 10 < 900`). -/
def paramsASmall : Params :=
  { Xmax := 400, Qb_max := 100, Qg_max := 10, kappa := 0, v_target := 0,
    X0 := 0 }

/-- The same parameters with the grid limit relaxed to 2000. -/
def paramsABig : Params :=
  { Xmax := 400, Qb_max := 100, Qg_max := 2000, kappa := 0, v_target := 0,
    X0 := 0 }

/-- The optimal point of the relaxed `dataA` model: import the full load. -/
def pointABig : EMSVars :=
  { b := fun _ => 0, x := fun _ => 0, g := fun _ => 1000, a := fun _ => 0,
    gamma := 0 }

/-- A solver behaving as Gurobi would on the two `dataA` models: infeasible
status for the tight grid limit, the optimal point for the relaxed one. -/
def oracleA : Oracle :=
  fun _ p => if p.Qg_max = 10 then ⟨3, zeroVars⟩ else ⟨2, pointABig⟩

/-- A one-step dataset with plentiful solar and a high price: exporting solar
beats charging once the grid limit allows it. -/
def dataB : List Record := [⟨1, 100, 0, 10⟩]

/-- Base parameters for the grid-capacity sweep on `dataB`
(`v_target * Xmax = 50`, `kappa = 1`). -/
def paramsBBase : Params :=
  { Xmax := 100, Qb_max := 100, Qg_max := 535, kappa := 1, v_target := 1/2,
    X0 := 0 }

/-- The base parameters with `Qg_max` overwritten to 50, as the sweep does. -/
def paramsBSmall : Params := { paramsBBase with Qg_max := 50 }

/-- The base parameters with `Qg_max` overwritten to 200. -/
def paramsBBig : Params := { paramsBBase with Qg_max := 200 }

/-- The optimal point of the `dataB` model at `Qg_max = 50`: charge the truck
from solar and export the rest; no shortfall. -/
def pointBSmall : EMSVars :=
  { b := fun _ => 50, x := fun _ => 50, g := fun _ => -50, a := fun _ => 0,
    gamma := 0 }

/-- The optimal point of the `dataB` model at `Qg_max = 200`: export all the
solar and accept a shortfall of 50. -/
def pointBBig : EMSVars :=
  { b := fun _ => 0, x := fun _ => 0, g := fun _ => -100, a := fun _ => 0,
    gamma := 50 }

/-- A solver returning the respective optimal points of the two `dataB`
models. -/
def oracleB : Oracle :=
  fun _ p => if p.Qg_max = 50 then ⟨2, pointBSmall⟩ else ⟨2, pointBBig⟩

/-- The parameters `paramsW5` with the grid limit relaxed to 600. -/
def paramsW8 : Params := { paramsW5 with Qg_max := 600 }

/-- A solver that always reports the all-zero point as optimal. -/
def oracleW8 : Oracle := fun _ _ => ⟨2, zeroVars⟩

theorem filterMap_ite_eq_filter (P : ℕ → Prop) [DecidablePred P] (l : List ℕ) :
    (l.filterMap fun j => if P j then some j else none)
      = l.filter fun j => decide (P j) := by
  induction l with
  | nil => rfl
  | cons a l ih =>
    by_cases h : P a <;> simp [List.filterMap_cons, List.filter_cons, h, ih]

theorem getD_boolFlag (conn : List Bool) (j : ℕ) (h : j < conn.length) :
    (boolFlag conn).getD j 0 = if conn.getD j false then 1 else 0 := by
  unfold boolFlag
  rw [List.getD_eq_getElem?_getD, List.getElem?_map,
    List.getElem?_eq_getElem h, List.getD_eq_getElem?_getD,
    List.getElem?_eq_getElem h]
  rfl

/-- C1: for every nonempty boolean connectivity sequence,
`get_departure_times` returns, in increasing order, exactly the indices `i`
with `connected[i]` true and `connected[i+1]` false, plus the final index
whenever the last element is connected. -/
theorem get_departure_times_matches_transition_spec (conn : List Bool)
    (h : conn ≠ []) :
    getDepartureTimes (boolFlag conn) = departuresSpec conn := by
  obtain ⟨n, hn⟩ : ∃ n, conn.length = n + 1 :=
    ⟨conn.length - 1, by have := List.length_pos.mpr h; omega⟩
  have hlen : (boolFlag conn).length = conn.length := List.length_map _ _
  unfold getDepartureTimes departuresSpec
  rw [hlen, hn]
  simp only [Nat.add_sub_cancel]
  rw [List.range'_eq_map_range, List.filterMap_map]
  have hfun : ((fun i => if (boolFlag conn).getD (i - 1) 0 = 1 ∧
      (boolFlag conn).getD i 0 = 0 then some (i - 1) else none) ∘ (1 + ·))
      = fun j => if (boolFlag conn).getD j 0 = 1 ∧
        (boolFlag conn).getD (j + 1) 0 = 0 then some j else none := by
    funext j
    simp [Function.comp, Nat.add_sub_cancel_left, Nat.add_comm 1 j]
  rw [hfun, filterMap_ite_eq_filter, List.range_succ, List.filter_append]
  have hcong : (List.range n).filter (fun j =>
      decide ((boolFlag conn).getD j 0 = 1 ∧
        (boolFlag conn).getD (j + 1) 0 = 0))
      = (List.range n).filter (fun i =>
        if i + 1 < n + 1 then conn.getD i false && !conn.getD (i + 1) false
        else conn.getD i false) := by
    apply List.filter_congr
    intro j hj
    have hjn : j < n := List.mem_range.mp hj
    rw [if_pos (by omega)]
    rw [getD_boolFlag conn j (by omega), getD_boolFlag conn (j + 1) (by omega)]
    cases conn.getD j false <;> cases conn.getD (j + 1) false <;> norm_num
  rw [hcong]
  have hlast : (boolFlag conn).getD n 0 = 1 ↔ conn.getD n false = true := by
    rw [getD_boolFlag conn n (by omega)]
    cases conn.getD n false <;> norm_num
  have hfn : (if n + 1 < n + 1 then conn.getD n false && !conn.getD (n + 1)
      false else conn.getD n false) = conn.getD n false := by
    rw [if_neg (by omega)]
  by_cases hc : conn.getD n false = true
  · rw [if_pos (hlast.mpr hc)]
    simp only [List.filter_singleton, hfn]
    rw [hc]
    rfl
  · have hc' : conn.getD n false = false := Bool.eq_false_iff.mpr hc
    rw [if_neg (fun hh => hc (hlast.mp hh))]
    simp only [List.filter_singleton, hfn]
    rw [hc']
    simp

/-- Witness for C1: the spec equality and the three worked examples
`[1,1,0,1,0] ↦ [1,3]`, `[1,1,1] ↦ [2]`, `[0,0,0] ↦ []`. -/
theorem get_departure_times_matches_transition_spec_witness :
    ([true, true, false, true, false] : List Bool) ≠ [] ∧
    getDepartureTimes (boolFlag [true, true, false, true, false])
      = departuresSpec [true, true, false, true, false] ∧
    getDepartureTimes (boolFlag [true, true, false, true, false]) = [1, 3] ∧
    getDepartureTimes (boolFlag [true, true, true]) = [2] ∧
    getDepartureTimes (boolFlag [false, false, false]) = [] :=
  ⟨by decide,
    get_departure_times_matches_transition_spec
      [true, true, false, true, false] (by decide),
    by decide, by decide, by decide⟩

theorem mem_loop_departures (truck : List ℚ) (d : ℕ)
    (hd : d ∈ (List.range' 1 (truck.length - 1)).filterMap fun i =>
      if truck.getD (i - 1) 0 = 1 ∧ truck.getD i 0 = 0 then some (i - 1)
      else none) :
    d < truck.length ∧ truck.getD d 0 = 1 := by
  obtain ⟨i, hi, hsome⟩ := List.mem_filterMap.mp hd
  have hi' := List.mem_range'_1.mp hi
  by_cases hcond : truck.getD (i - 1) 0 = 1 ∧ truck.getD i 0 = 0
  · rw [if_pos hcond] at hsome
    obtain rfl : i - 1 = d := Option.some_inj.mp hsome
    exact ⟨by omega, hcond.1⟩
  · rw [if_neg hcond] at hsome; cases hsome

/-- C6 (amended): every departure index returned by `get_departure_times` is
a valid index at which the truck is connected, so every session produced by
the session loops ends at a connected step; sessions need not start at a
connected step nor consist only of connected steps. -/
theorem departure_index_connected (truck : List ℚ) (d : ℕ)
    (hd : d ∈ getDepartureTimes truck) :
    d < truck.length ∧ truck.getD d 0 = 1 := by
  unfold getDepartureTimes at hd
  by_cases hlast : truck.getD (truck.length - 1) 0 = 1
  · rw [if_pos hlast] at hd
    rcases List.mem_append.mp hd with hA | hB
    · exact mem_loop_departures truck d hA
    · have hd' : d = truck.length - 1 := by simpa using hB
      subst hd'
      refine ⟨?_, hlast⟩
      by_contra hlen
      have h0 : truck.length = 0 := by omega
      have : truck = [] := List.length_eq_zero.mp h0
      subst this
      simp [List.getD] at hlast
  · rw [if_neg hlast] at hd
    exact mem_loop_departures truck d hd

/-- Counterexample for C6: on the truck column `[0, 1]` the single session is
`[0, 1]`, which starts at index 0 where the truck is not connected — sessions
are not maximal contiguous connected runs. -/
theorem session_start_disconnected_counterexample :
    getDepartureTimes ([0, 1] : List ℚ) = [1] ∧
    sessionBounds (getDepartureTimes ([0, 1] : List ℚ)) = [(0, 1)] ∧
    ¬ (([0, 1] : List ℚ).getD 0 0 = 1) :=
  ⟨by decide, by decide, by decide⟩

/-- Witness for C6: index 1 is a departure of the column `[0, 1]` and is a
connected, in-range index. -/
theorem departure_index_connected_witness :
    1 ∈ getDepartureTimes ([0, 1] : List ℚ) ∧
    (1 < ([0, 1] : List ℚ).length ∧ ([0, 1] : List ℚ).getD 1 0 = 1) :=
  ⟨by decide, departure_index_connected [0, 1] 1 (by decide)⟩

theorem list_range_map_sum (n : ℕ) (f : ℕ → ℚ) :
    ((List.range n).map f).sum = ∑ t in Finset.range n, f t := by
  induction n with
  | zero => simp
  | succ k ih =>
    rw [List.range_succ, List.map_append, List.sum_append,
      Finset.sum_range_succ, ih]
    simp

/-- C4: the objective set by `build_model` is exactly the sum over all
session steps of `price_t * g_t` plus `kappa * gamma`, for every session
slice, parameter set and assignment; the model sense is minimization, which
the optimality predicate `OptimalPoint` encodes. -/
theorem objective_is_grid_cost_plus_penalty (data : List Record) (p : Params)
    (v : EMSVars) :
    emsObjective data p v =
      (∑ t in Finset.range data.length, colPrice data t * v.g t)
        + p.kappa * v.gamma := by
  unfold emsObjective
  rw [list_range_map_sum]

/-- C3: the energy-balance equality `load_t + b_t + a_t = solar_t + g_t` is
imposed at every step, so every feasible point satisfies
`load_t + b_t + a_t - solar_t - g_t = 0` at every step of the slice. -/
theorem energy_balance_all_steps (data : List Record) (p : Params)
    (v : EMSVars) (hf : Feasible data p v) (t : ℕ) (ht : t < data.length) :
    colLoad data t + v.b t + v.a t - colSolar data t - v.g t = 0 := by
  have := hf.balance t ht
  linarith

theorem feasible_pointW3 : Feasible dataW3 paramsW2 pointW3 := by
  constructor <;>
    first
    | (intro t ht
       norm_num [dataW3] at ht
       interval_cases t <;>
         norm_num [dataW3, paramsW2, pointW3, colTruck, colSolar, colLoad,
           colPrice])
    | norm_num [dataW3, paramsW2, pointW3, colTruck, colSolar, colLoad,
        colPrice]

/-- Witness for C3: a concrete feasible point of a one-step model satisfies
the balance residual equation. -/
theorem energy_balance_all_steps_witness :
    Feasible dataW3 paramsW2 pointW3 ∧ 0 < dataW3.length ∧
    colLoad dataW3 0 + pointW3.b 0 + pointW3.a 0 - colSolar dataW3 0
      - pointW3.g 0 = 0 :=
  ⟨feasible_pointW3, by decide,
    energy_balance_all_steps dataW3 paramsW2 pointW3 feasible_pointW3 0
      (by decide)⟩

/-- C2 (amended): the state-of-charge constraints actually imposed are
`x_0 = X0 + b_0 * truck_0` and, for `t ≥ 1`, `x_t = x_{t-1} + b_t` when the
truck is connected at `t` but `x_t = 0` when it is not; on a slice whose
steps are all connected, every feasible point satisfies the integral
invariant `x_t = X0 + sum of b_s over s ≤ t`. -/
theorem soc_integral_on_connected_slices (data : List Record) (p : Params)
    (v : EMSVars) (hf : Feasible data p v)
    (hconn : ∀ t < data.length, colTruck data t = 1)
    (t : ℕ) (ht : t < data.length) :
    v.x t = p.X0 + ∑ s in Finset.range (t + 1), v.b s := by
  induction t with
  | zero =>
    have h0 := hf.soc_start
    rw [hconn 0 (by omega)] at h0
    simpa [Finset.sum_range_one] using h0
  | succ k ih =>
    have hk : k < data.length := by omega
    have hdyn := hf.soc_dyn (k + 1) ht (by omega) (hconn (k + 1) ht)
    simp only [Nat.add_sub_cancel] at hdyn
    rw [hdyn, ih hk, Finset.sum_range_succ v.b (k + 1)]
    ring

theorem feasible_pointC2 : Feasible dataC2 paramsC2 pointC2 := by
  constructor <;>
    first
    | (intro t ht
       norm_num [dataC2] at ht
       interval_cases t <;>
         norm_num [dataC2, paramsC2, pointC2, colTruck, colSolar, colLoad,
           colPrice])
    | norm_num [dataC2, paramsC2, pointC2, colTruck, colSolar, colLoad,
        colPrice]

/-- Counterexample for C2: the slice `dataC2` (truck column `[0, 0, 1]`) is a
genuine session slice of `dataFull24`, and the optimal point of its model
with `X0 = 1` violates both `x_1 = x_0 + b_1` and the integral invariant
`x_1 = X0 + b_0 + b_1`, because the code imposes `x_1 = 0` at the
disconnected step instead of the dynamics equation. -/
theorem soc_dynamics_claim_counterexample :
    getDepartureTimes (dataFull24.map Record.truck) = [0, 3] ∧
    sessionSlice dataFull24 1 3 = dataC2 ∧
    OptimalPoint dataC2 paramsC2 pointC2 ∧
    ¬ (pointC2.x 1 = pointC2.x 0 + pointC2.b 1) ∧
    ¬ (pointC2.x 1 = paramsC2.X0 + ∑ s in Finset.range 2, pointC2.b s) := by
  refine ⟨by decide, by decide, ⟨feasible_pointC2, ?_⟩, ?_, ?_⟩
  · intro w hw
    have h1 : emsObjective dataC2 paramsC2 pointC2 =
        (0 * (0:ℚ) + (0 * 0 + (0 * 50 + 0))) + 1 * 0 := rfl
    have h2 : emsObjective dataC2 paramsC2 w =
        (0 * w.g 0 + (0 * w.g 1 + (0 * w.g 2 + 0))) + 1 * w.gamma := rfl
    rw [h1, h2]
    linarith [hw.gamma_lb]
  · norm_num [pointC2]
  · rw [Finset.sum_range_succ, Finset.sum_range_one]
    norm_num [pointC2, paramsC2]

theorem feasible_zeroW2 : Feasible dataW2 paramsW2 zeroVars := by
  constructor <;>
    first
    | (intro t ht
       norm_num [dataW2] at ht
       interval_cases t <;>
         norm_num [dataW2, paramsW2, zeroVars, colTruck, colSolar, colLoad,
           colPrice])
    | norm_num [dataW2, paramsW2, zeroVars, colTruck, colSolar, colLoad,
        colPrice]

/-- Witness for C2: on a fully connected one-step slice, a feasible point
satisfies the integral invariant at `t = 0`. -/
theorem soc_integral_on_connected_slices_witness :
    Feasible dataW2 paramsW2 zeroVars ∧
    (∀ t < dataW2.length, colTruck dataW2 t = 1) ∧ 0 < dataW2.length ∧
    zeroVars.x 0 = paramsW2.X0 + ∑ s in Finset.range 1, zeroVars.b s := by
  have hc : ∀ t < dataW2.length, colTruck dataW2 t = 1 := by decide
  exact ⟨feasible_zeroW2, hc, by decide,
    soc_integral_on_connected_slices dataW2 paramsW2 zeroVars feasible_zeroW2
      hc 0 (by decide)⟩

theorem feasible_update_gamma (data : List Record) (p : Params) (v : EMSVars)
    (m : ℚ) (hf : Feasible data p v) (hm0 : 0 ≤ m)
    (hmt : v.x (data.length - 1) ≥ p.v_target * p.Xmax - m) :
    Feasible data p { v with gamma := m } :=
  { hf with gamma_lb := hm0, soc_target := hmt }

/-- C5 (amended): in every built model `gamma` has lower bound 0 and the
constraint `x_{T-1} >= v_target * Xmax - gamma` is imposed; at any optimal
solution, provided the penalty `kappa` is strictly positive, `gamma` equals
`max(0, v_target * Xmax - x_{T-1})`. -/
theorem gamma_tightness_at_optimum_pos_kappa (data : List Record) (p : Params)
    (v : EMSVars) (hopt : OptimalPoint data p v) (hk : 0 < p.kappa) :
    0 ≤ v.gamma ∧
    v.x (data.length - 1) ≥ p.v_target * p.Xmax - v.gamma ∧
    v.gamma = max 0 (p.v_target * p.Xmax - v.x (data.length - 1)) := by
  obtain ⟨hf, hmin⟩ := hopt
  refine ⟨hf.gamma_lb, hf.soc_target, ?_⟩
  set m := max 0 (p.v_target * p.Xmax - v.x (data.length - 1)) with hm
  have hge : m ≤ v.gamma := by
    apply max_le hf.gamma_lb
    have := hf.soc_target
    linarith
  rcases lt_or_eq_of_le hge with hlt | heq
  · exfalso
    have hfeas2 : Feasible data p { v with gamma := m } :=
      feasible_update_gamma data p v m hf (le_max_left _ _)
        (by
          have := le_max_right 0 (p.v_target * p.Xmax - v.x (data.length - 1))
          linarith)
    have hle := hmin _ hfeas2
    have hobj : emsObjective data p { v with gamma := m } =
        ((List.range data.length).map fun t => colPrice data t * v.g t).sum
          + p.kappa * m := rfl
    rw [hobj] at hle
    unfold emsObjective at hle
    have hgm : p.kappa * v.gamma ≤ p.kappa * m := by linarith
    have := (mul_le_mul_left hk).mp hgm
    linarith
  · exact heq.symm

theorem feasible_pointC5 : Feasible dataW2 paramsC5 pointC5 := by
  constructor <;>
    first
    | (intro t ht
       norm_num [dataW2] at ht
       interval_cases t <;>
         norm_num [dataW2, paramsC5, pointC5, zeroVars, colTruck, colSolar,
           colLoad, colPrice])
    | norm_num [dataW2, paramsC5, pointC5, zeroVars, colTruck, colSolar,
        colLoad, colPrice]

/-- Counterexample for C5: with `kappa = 0` (allowed by the parameters
contract) and zero prices, every feasible point is optimal, so a point with a
gratuitous `gamma = 5` is optimal even though
`max(0, v_target * Xmax - x_{T-1}) = 0`. -/
theorem gamma_tightness_counterexample_kappa_zero :
    OptimalPoint dataW2 paramsC5 pointC5 ∧
    pointC5.gamma ≠
      max 0 (paramsC5.v_target * paramsC5.Xmax
        - pointC5.x (dataW2.length - 1)) := by
  refine ⟨⟨feasible_pointC5, ?_⟩, ?_⟩
  · intro w hw
    have h1 : emsObjective dataW2 paramsC5 pointC5 =
        (0 * (0:ℚ) + 0) + 0 * 5 := rfl
    have h2 : emsObjective dataW2 paramsC5 w =
        (0 * w.g 0 + 0) + 0 * w.gamma := rfl
    rw [h1, h2]
    linarith
  · norm_num [pointC5, paramsC5, zeroVars, dataW2]

theorem feasible_zeroW5 : Feasible dataW2 paramsW5 zeroVars := by
  constructor <;>
    first
    | (intro t ht
       norm_num [dataW2] at ht
       interval_cases t <;>
         norm_num [dataW2, paramsW5, zeroVars, colTruck, colSolar, colLoad,
           colPrice])
    | norm_num [dataW2, paramsW5, zeroVars, colTruck, colSolar, colLoad,
        colPrice]

theorem optimalPoint_zeroVars_W5 : OptimalPoint dataW2 paramsW5 zeroVars := by
  refine ⟨feasible_zeroW5, ?_⟩
  intro w hw
  have h1 : emsObjective dataW2 paramsW5 zeroVars =
      (0 * (0:ℚ) + 0) + 1 * 0 := rfl
  have h2 : emsObjective dataW2 paramsW5 w =
      (0 * w.g 0 + 0) + 1 * w.gamma := rfl
  rw [h1, h2]
  linarith [hw.gamma_lb]

/-- Witness for C5: at the optimal all-zero point of a model with
`kappa = 1 > 0`, the shortfall is tight: `gamma = max(0, target - x)` holds.
-/
theorem gamma_tightness_at_optimum_pos_kappa_witness :
    OptimalPoint dataW2 paramsW5 zeroVars ∧ 0 < paramsW5.kappa ∧
    (0 ≤ zeroVars.gamma ∧
    zeroVars.x (dataW2.length - 1) ≥
      paramsW5.v_target * paramsW5.Xmax - zeroVars.gamma ∧
    zeroVars.gamma =
      max 0 (paramsW5.v_target * paramsW5.Xmax
        - zeroVars.x (dataW2.length - 1))) :=
  ⟨optimalPoint_zeroVars_W5, by norm_num [paramsW5],
    gamma_tightness_at_optimum_pos_kappa dataW2 paramsW5 zeroVars
      optimalPoint_zeroVars_W5 (by norm_num [paramsW5])⟩

theorem runSessionsAux_metric_shape (data : List Record) (p : Params)
    (oracle : Oracle) (deps : List ℕ) (start : ℕ) (m : SessionMetric)
    (hm : m ∈ (runSessionsAux data p oracle deps start).session_metrics) :
    m.objval = (if (oracle (sessionSlice data m.session_start m.session_end)
        p).status = 2
      then some (emsObjective (sessionSlice data m.session_start m.session_end)
        p (oracle (sessionSlice data m.session_start m.session_end) p).point)
      else none) ∧
    m.gammaVal = (if (oracle (sessionSlice data m.session_start m.session_end)
        p).status = 2
      then some ((oracle (sessionSlice data m.session_start m.session_end)
        p).point.gamma)
      else none) := by
  induction deps generalizing start with
  | nil => simp [runSessionsAux] at hm
  | cons dep rest ih =>
    simp only [runSessionsAux, List.mem_cons] at hm
    rcases hm with rfl | hm
    · exact ⟨rfl, rfl⟩
    · exact ih (dep + 1) hm

theorem runSessionsAux_totals (data : List Record) (p : Params)
    (oracle : Oracle) (deps : List ℕ) (start : ℕ) :
    (runSessionsAux data p oracle deps start).total_cost =
      ((runSessionsAux data p oracle deps start).session_metrics.map
        fun m => m.objval.getD 0).sum ∧
    (runSessionsAux data p oracle deps start).total_gamma =
      ((runSessionsAux data p oracle deps start).session_metrics.map
        fun m => m.gammaVal.getD 0).sum := by
  induction deps generalizing start with
  | nil => simp [runSessionsAux]
  | cons dep rest ih =>
    simp only [runSessionsAux, List.map_cons, List.sum_cons]
    exact ⟨by rw [(ih (dep + 1)).1], by rw [(ih (dep + 1)).2]⟩

/-- C7: in `run_sessions`, a session whose solve does not report the optimal
status has its per-session objective and gamma recorded as `math.nan`
(modelled `none`), and the totals are the sums of the per-session
contributions with `none` counted as exactly zero, so the totals are never
NaN-propagated. -/
theorem nonoptimal_session_zero_contribution (data : List Record) (p : Params)
    (oracle : Oracle) (m : SessionMetric)
    (hm : m ∈ (runSessions data p oracle).session_metrics)
    (hstat : (oracle (sessionSlice data m.session_start m.session_end)
      p).status ≠ 2) :
    m.objval = none ∧ m.gammaVal = none ∧
    (runSessions data p oracle).total_cost =
      ((runSessions data p oracle).session_metrics.map
        fun mm => mm.objval.getD 0).sum ∧
    (runSessions data p oracle).total_gamma =
      ((runSessions data p oracle).session_metrics.map
        fun mm => mm.gammaVal.getD 0).sum := by
  obtain ⟨h1, h2⟩ := runSessionsAux_metric_shape data p oracle
    (getDepartureTimes (data.map Record.truck)) 0 m hm
  rw [if_neg hstat] at h1 h2
  exact ⟨h1, h2,
    (runSessionsAux_totals data p oracle _ 0).1,
    (runSessionsAux_totals data p oracle _ 0).2⟩

/-- Witness for C7: with a solver that always reports status 3, the single
session of a one-step dataset gets `none` metrics and zero totals. -/
theorem nonoptimal_session_zero_contribution_witness :
    (⟨0, 0, none, none⟩ : SessionMetric) ∈
      (runSessions dataW2 paramsW2 oracle3).session_metrics ∧
    (oracle3 (sessionSlice dataW2 0 0) paramsW2).status ≠ 2 ∧
    ((⟨0, 0, none, none⟩ : SessionMetric).objval = none ∧
    (⟨0, 0, none, none⟩ : SessionMetric).gammaVal = none ∧
    (runSessions dataW2 paramsW2 oracle3).total_cost =
      ((runSessions dataW2 paramsW2 oracle3).session_metrics.map
        fun mm => mm.objval.getD 0).sum ∧
    (runSessions dataW2 paramsW2 oracle3).total_gamma =
      ((runSessions dataW2 paramsW2 oracle3).session_metrics.map
        fun mm => mm.gammaVal.getD 0).sum) :=
  ⟨by decide, by decide,
    nonoptimal_session_zero_contribution dataW2 paramsW2 oracle3
      ⟨0, 0, none, none⟩ (by decide) (by decide)⟩

/-- Counterexample for C9: on an empty slice that has all four required
columns, `build_model` still raises — `validate_data` passes, but the
`soc_start` constraint looks up `x[0]` in an empty variable dictionary and
raises `KeyError` — so an error is not equivalent to a missing column. -/
theorem build_model_error_on_empty_slice :
    buildModelE ⟨requiredColumns, []⟩ getDefaultParameters
      = .error .emptyKey ∧
    (∀ c ∈ requiredColumns,
      (⟨requiredColumns, ([] : List Record)⟩ : Frame).columns.contains c
        = true) :=
  ⟨rfl, by decide⟩

/-- C9 (amended): on a nonempty slice, `build_model` raises an error if and
only if a required column is missing, and in that case the error is the
validation error naming the first missing column, raised before any variable
or constraint is constructed. -/
theorem build_model_error_iff_missing_column_nonempty (f : Frame) (p : Params)
    (hne : f.records ≠ []) :
    ((buildModelE f p).isOk = true ↔
      requiredColumns.all (fun c => f.columns.contains c) = true) ∧
    (∀ c, requiredColumns.find? (fun c => !f.columns.contains c) = some c →
      buildModelE f p = .error (.missingColumn c)) := by
  have hlen : ¬ f.records.length = 0 := by
    simpa using fun h => hne (List.length_eq_zero.mp h)
  constructor
  · unfold buildModelE validateData
    cases hfind : requiredColumns.find? (fun c => !f.columns.contains c) with
    | some c =>
      have hc := List.find?_some hfind
      have hmem : c ∈ requiredColumns := List.mem_of_find?_eq_some hfind
      simp only [Except.isOk]
      constructor
      · intro habs
        simp [Except.toBool] at habs
      · intro hall
        exfalso
        have hmemc := List.all_eq_true.mp hall c hmem
        simp only at hmemc
        rw [hmemc] at hc
        simp at hc
    | none =>
      rw [if_neg hlen]
      simp only [Except.isOk]
      constructor
      · intro _
        apply List.all_eq_true.mpr
        intro c hcmem
        have := List.find?_eq_none.mp hfind c hcmem
        simpa using this
      · intro _; rfl
  · intro c hc
    unfold buildModelE validateData
    rw [hc]

/-- Witness for C9: a nonempty frame missing three required columns fails
validation with the first missing column, `Truck`. -/
theorem build_model_error_iff_missing_column_nonempty_witness :
    frameW9.records ≠ [] ∧
    (((buildModelE frameW9 getDefaultParameters).isOk = true ↔
      requiredColumns.all (fun c => frameW9.columns.contains c) = true) ∧
    (∀ c, requiredColumns.find? (fun c => !frameW9.columns.contains c)
        = some c →
      buildModelE frameW9 getDefaultParameters
        = .error (.missingColumn c))) :=
  ⟨by decide,
    build_model_error_iff_missing_column_nonempty frameW9 getDefaultParameters
      (by decide)⟩

/-- C10: `experiment_grid_capacity` divides `avg_gamma` by
`v_target * Xmax` with no guard, so whenever the base parameters have
`v_target = 0` or `Xmax = 0`, every reported miss fraction is a division by
zero (`none`), regardless of the data and of the solver — in particular even
when every session solved optimally. -/
theorem grid_experiment_fraction_div_zero (data : List Record) (base : Params)
    (qgs : List ℚ) (oracle : Oracle)
    (h : base.v_target = 0 ∨ base.Xmax = 0) (row : GridRow)
    (hr : row ∈ experimentGridCapacity data base qgs oracle) :
    row.avg_miss_fraction = none := by
  unfold experimentGridCapacity at hr
  obtain ⟨qg, hqg, rfl⟩ := List.mem_map.mp hr
  show pyDiv _ _ = none
  unfold pyDiv
  rcases h with h | h
  · rw [if_pos (by simp [show ({ base with Qg_max := qg } : Params).v_target
      = base.v_target from rfl, h])]
  · rw [if_pos (by simp [show ({ base with Qg_max := qg } : Params).Xmax
      = base.Xmax from rfl, h])]

/-- Witness for C10: with `v_target = 0` the single sweep row carries a
`none` miss fraction. -/
theorem grid_experiment_fraction_div_zero_witness :
    (paramsW2.v_target = 0 ∨ paramsW2.Xmax = 0) ∧
    (⟨10, 0, none, 0⟩ : GridRow) ∈
      experimentGridCapacity dataW2 paramsW2 [10] oracle3 ∧
    (⟨10, 0, none, 0⟩ : GridRow).avg_miss_fraction = none :=
  ⟨Or.inl rfl, by
    norm_num [experimentGridCapacity, runSessions, runSessionsAux,
      getDepartureTimes, sessionSlice, dataW2, paramsW2, oracle3, pyDiv],
    grid_experiment_fraction_div_zero dataW2 paramsW2 [10] oracle3
      (Or.inl rfl) ⟨10, 0, none, 0⟩ (by
        norm_num [experimentGridCapacity, runSessions, runSessionsAux,
          getDepartureTimes, sessionSlice, dataW2, paramsW2, oracle3, pyDiv])⟩

theorem feasible_mono_Qg (data : List Record) (p1 p2 : Params) (v : EMSVars)
    (heq : eqExceptQg p1 p2) (hle : p1.Qg_max ≤ p2.Qg_max)
    (hf : Feasible data p1 v) : Feasible data p2 v := by
  obtain ⟨hX, hQb, hk, hv, h0⟩ := heq
  constructor
  · intro t ht; rw [← hQb]; exact hf.b_lb t ht
  · intro t ht; rw [← hQb]; exact hf.b_ub t ht
  · exact hf.x_lb
  · intro t ht; have := hf.g_lb t ht; linarith
  · intro t ht; have := hf.g_ub t ht; linarith
  · exact hf.a_lb
  · exact hf.a_ub
  · exact hf.gamma_lb
  · intro t ht; rw [← hQb]; exact hf.charge_limit t ht
  · intro t ht; rw [← hQb]; exact hf.discharge_limit t ht
  · rw [← h0]; exact hf.soc_start
  · exact hf.soc_dyn
  · exact hf.soc_reset
  · exact hf.curtail
  · exact hf.balance
  · rw [← hv, ← hX]; exact hf.soc_target

theorem emsObjective_eq_of_eqExceptQg (data : List Record) (p1 p2 : Params)
    (v : EMSVars) (heq : eqExceptQg p1 p2) :
    emsObjective data p2 v = emsObjective data p1 v := by
  unfold emsObjective
  rw [heq.2.2.1]

theorem runSessionsAux_cons (data : List Record) (p : Params)
    (oracle : Oracle) (dep : ℕ) (rest : List ℕ) (start : ℕ) :
    runSessionsAux data p oracle (dep :: rest) start =
      ⟨(if (oracle (sessionSlice data start dep) p).status = 2
          then some (emsObjective (sessionSlice data start dep) p
            (oracle (sessionSlice data start dep) p).point)
          else none).getD 0
        + (runSessionsAux data p oracle rest (dep + 1)).total_cost,
       (if (oracle (sessionSlice data start dep) p).status = 2
          then some ((oracle (sessionSlice data start dep) p).point.gamma)
          else none).getD 0
        + (runSessionsAux data p oracle rest (dep + 1)).total_gamma,
       ⟨start, dep,
        if (oracle (sessionSlice data start dep) p).status = 2
          then some (emsObjective (sessionSlice data start dep) p
            (oracle (sessionSlice data start dep) p).point)
          else none,
        if (oracle (sessionSlice data start dep) p).status = 2
          then some ((oracle (sessionSlice data start dep) p).point.gamma)
          else none⟩
        :: (runSessionsAux data p oracle rest (dep + 1)).session_metrics⟩ :=
  rfl

theorem runSessionsAux_cost_mono (data : List Record) (p1 p2 : Params)
    (O1 O2 : Oracle) (heq : eqExceptQg p1 p2) (hle : p1.Qg_max ≤ p2.Qg_max)
    (deps : List ℕ) (start : ℕ)
    (h1 : ∀ s ∈ sessionSlicesAux data deps start,
      (O1 s p1).status = 2 ∧ OptimalPoint s p1 (O1 s p1).point)
    (h2 : ∀ s ∈ sessionSlicesAux data deps start,
      (O2 s p2).status = 2 ∧ OptimalPoint s p2 (O2 s p2).point) :
    (runSessionsAux data p2 O2 deps start).total_cost ≤
      (runSessionsAux data p1 O1 deps start).total_cost := by
  induction deps generalizing start with
  | nil => simp [runSessionsAux]
  | cons dep rest ih =>
    have hmem : sessionSlice data start dep ∈
        sessionSlicesAux data (dep :: rest) start := by
      simp [sessionSlicesAux]
    obtain ⟨hs1, ho1⟩ := h1 _ hmem
    obtain ⟨hs2, ho2⟩ := h2 _ hmem
    have htail1 : ∀ s ∈ sessionSlicesAux data rest (dep + 1),
        (O1 s p1).status = 2 ∧ OptimalPoint s p1 (O1 s p1).point := by
      intro s hs
      exact h1 s (by simp [sessionSlicesAux, hs])
    have htail2 : ∀ s ∈ sessionSlicesAux data rest (dep + 1),
        (O2 s p2).status = 2 ∧ OptimalPoint s p2 (O2 s p2).point := by
      intro s hs
      exact h2 s (by simp [sessionSlicesAux, hs])
    have hrest := ih (dep + 1) htail1 htail2
    rw [runSessionsAux_cons, runSessionsAux_cons]
    simp only [hs1, hs2, if_pos, Option.getD_some]
    have hfeas : Feasible (sessionSlice data start dep) p2
        (O1 (sessionSlice data start dep) p1).point :=
      feasible_mono_Qg _ p1 p2 _ heq hle ho1.1
    have hhead : emsObjective (sessionSlice data start dep) p2
        (O2 (sessionSlice data start dep) p2).point ≤
        emsObjective (sessionSlice data start dep) p1
          (O1 (sessionSlice data start dep) p1).point := by
      calc emsObjective (sessionSlice data start dep) p2
            (O2 (sessionSlice data start dep) p2).point
          ≤ emsObjective (sessionSlice data start dep) p2
            (O1 (sessionSlice data start dep) p1).point := ho2.2 _ hfeas
        _ = emsObjective (sessionSlice data start dep) p1
            (O1 (sessionSlice data start dep) p1).point :=
          emsObjective_eq_of_eqExceptQg _ p1 p2 _ heq
    linarith

/-- C8 (amended): for a fixed dataset and two parameter sets identical except
for `Qg_max`, if every session of the run solves to optimality under both
parameter sets, then the run with the larger `Qg_max` yields a total cost no
larger; the average shortfall fraction need not be monotone even then. -/
theorem total_cost_monotone_in_qg_when_optimal (data : List Record)
    (p1 p2 : Params) (O1 O2 : Oracle) (heq : eqExceptQg p1 p2)
    (hle : p1.Qg_max ≤ p2.Qg_max)
    (h1 : ∀ s ∈ sessionSlices data,
      (O1 s p1).status = 2 ∧ OptimalPoint s p1 (O1 s p1).point)
    (h2 : ∀ s ∈ sessionSlices data,
      (O2 s p2).status = 2 ∧ OptimalPoint s p2 (O2 s p2).point) :
    (runSessions data p2 O2).total_cost ≤
      (runSessions data p1 O1).total_cost :=
  runSessionsAux_cost_mono data p1 p2 O1 O2 heq hle
    (getDepartureTimes (data.map Record.truck)) 0 h1 h2

theorem dataA_small_infeasible (v : EMSVars) :
    ¬ Feasible dataA paramsASmall v := by
  intro hf
  have hg := hf.g_ub 0 (by norm_num [dataA])
  have hb := hf.discharge_limit 0 (by norm_num [dataA])
  have ha := hf.a_lb 0 (by norm_num [dataA])
  have hbal := hf.balance 0 (by norm_num [dataA])
  rw [show colLoad dataA 0 = 1000 from rfl, show colSolar dataA 0 = 0 from rfl]
    at hbal
  rw [show colTruck dataA 0 = 1 from rfl] at hb
  norm_num [paramsASmall] at hg hb
  linarith

theorem feasible_pointABig : Feasible dataA paramsABig pointABig := by
  constructor <;>
    first
    | (intro t ht
       norm_num [dataA] at ht
       interval_cases t <;>
         norm_num [dataA, paramsABig, pointABig, colTruck, colSolar, colLoad,
           colPrice])
    | norm_num [dataA, paramsABig, pointABig, colTruck, colSolar, colLoad,
        colPrice]

theorem optimalPoint_pointABig : OptimalPoint dataA paramsABig pointABig := by
  refine ⟨feasible_pointABig, ?_⟩
  intro w hw
  have h1 : emsObjective dataA paramsABig pointABig =
      (1 * (1000:ℚ) + 0) + 0 * 0 := rfl
  have h2 : emsObjective dataA paramsABig w =
      (1 * w.g 0 + 0) + 0 * w.gamma := rfl
  have hx := hw.x_lb 0 (by norm_num [dataA])
  have hstart := hw.soc_start
  have ha := hw.a_lb 0 (by norm_num [dataA])
  have hbal := hw.balance 0 (by norm_num [dataA])
  rw [show colLoad dataA 0 = 1000 from rfl, show colSolar dataA 0 = 0 from rfl]
    at hbal
  rw [show colTruck dataA 0 = 1 from rfl, show paramsABig.X0 = 0 from rfl]
    at hstart
  rw [h1, h2]
  linarith

theorem feasible_pointBSmall : Feasible dataB paramsBSmall pointBSmall := by
  constructor <;>
    first
    | (intro t ht
       norm_num [dataB] at ht
       interval_cases t <;>
         norm_num [dataB, paramsBSmall, paramsBBase, pointBSmall, colTruck,
           colSolar, colLoad, colPrice])
    | norm_num [dataB, paramsBSmall, paramsBBase, pointBSmall, colTruck,
        colSolar, colLoad, colPrice]

theorem feasible_pointBBig : Feasible dataB paramsBBig pointBBig := by
  constructor <;>
    first
    | (intro t ht
       norm_num [dataB] at ht
       interval_cases t <;>
         norm_num [dataB, paramsBBig, paramsBBase, pointBBig, colTruck,
           colSolar, colLoad, colPrice])
    | norm_num [dataB, paramsBBig, paramsBBase, pointBBig, colTruck,
        colSolar, colLoad, colPrice]

theorem optimalPoint_pointBSmall :
    OptimalPoint dataB paramsBSmall pointBSmall := by
  refine ⟨feasible_pointBSmall, ?_⟩
  intro w hw
  have h1 : emsObjective dataB paramsBSmall pointBSmall =
      (10 * (-50:ℚ) + 0) + 1 * 0 := rfl
  have h2 : emsObjective dataB paramsBSmall w =
      (10 * w.g 0 + 0) + 1 * w.gamma := rfl
  have hg := hw.g_lb 0 (by norm_num [dataB])
  have hgam := hw.gamma_lb
  rw [show paramsBSmall.Qg_max = 50 from rfl] at hg
  rw [h1, h2]
  linarith

theorem optimalPoint_pointBBig : OptimalPoint dataB paramsBBig pointBBig := by
  refine ⟨feasible_pointBBig, ?_⟩
  intro w hw
  have h1 : emsObjective dataB paramsBBig pointBBig =
      (10 * (-100:ℚ) + 0) + 1 * 50 := rfl
  have h2 : emsObjective dataB paramsBBig w =
      (10 * w.g 0 + 0) + 1 * w.gamma := rfl
  have hx := hw.x_lb 0 (by norm_num [dataB])
  have hstart := hw.soc_start
  have ha := hw.a_lb 0 (by norm_num [dataB])
  have hbal := hw.balance 0 (by norm_num [dataB])
  have htgt := hw.soc_target
  rw [show colLoad dataB 0 = 0 from rfl, show colSolar dataB 0 = 100 from rfl]
    at hbal
  rw [show colTruck dataB 0 = 1 from rfl, show paramsBBig.X0 = 0 from rfl]
    at hstart
  rw [show paramsBBig.v_target * paramsBBig.Xmax = 50 by norm_num
    [paramsBBig, paramsBBase], show dataB.length - 1 = 0 from rfl] at htgt
  rw [h1, h2]
  linarith

theorem forced_gamma_small (w : EMSVars)
    (hw : OptimalPoint dataB paramsBSmall w) : w.gamma = 0 := by
  obtain ⟨hf, hmin⟩ := hw
  have hle := hmin pointBSmall feasible_pointBSmall
  have h1 : emsObjective dataB paramsBSmall pointBSmall =
      (10 * (-50:ℚ) + 0) + 1 * 0 := rfl
  have h2 : emsObjective dataB paramsBSmall w =
      (10 * w.g 0 + 0) + 1 * w.gamma := rfl
  rw [h1, h2] at hle
  have hg := hf.g_lb 0 (by norm_num [dataB])
  rw [show paramsBSmall.Qg_max = 50 from rfl] at hg
  have hgam := hf.gamma_lb
  linarith

theorem forced_gamma_big (w : EMSVars)
    (hw : OptimalPoint dataB paramsBBig w) : w.gamma = 50 := by
  obtain ⟨hf, hmin⟩ := hw
  have hle := hmin pointBBig feasible_pointBBig
  have h1 : emsObjective dataB paramsBBig pointBBig =
      (10 * (-100:ℚ) + 0) + 1 * 50 := rfl
  have h2 : emsObjective dataB paramsBBig w =
      (10 * w.g 0 + 0) + 1 * w.gamma := rfl
  rw [h1, h2] at hle
  have hx := hf.x_lb 0 (by norm_num [dataB])
  have hstart := hf.soc_start
  have ha := hf.a_lb 0 (by norm_num [dataB])
  have hbal := hf.balance 0 (by norm_num [dataB])
  have htgt := hf.soc_target
  rw [show colLoad dataB 0 = 0 from rfl, show colSolar dataB 0 = 100 from rfl]
    at hbal
  rw [show colTruck dataB 0 = 1 from rfl, show paramsBBig.X0 = 0 from rfl]
    at hstart
  rw [show paramsBBig.v_target * paramsBBig.Xmax = 50 by norm_num
    [paramsBBig, paramsBBase], show dataB.length - 1 = 0 from rfl] at htgt
  have hup : w.gamma ≤ 50 := by linarith
  have hdown : 50 ≤ w.gamma := by linarith
  linarith

theorem runA_small_cost :
    (runSessions dataA paramsASmall oracleA).total_cost = 0 := by
  norm_num [runSessions, runSessionsAux, getDepartureTimes, sessionSlice,
    dataA, paramsASmall, oracleA]

theorem runA_big_cost :
    (runSessions dataA paramsABig oracleA).total_cost = 1000 := by
  norm_num [runSessions, runSessionsAux, getDepartureTimes, sessionSlice,
    dataA, paramsABig, oracleA, emsObjective, colPrice, pointABig,
    List.range_succ, List.range_zero]

theorem gridB_fractions :
    (experimentGridCapacity dataB paramsBBase [50, 200] oracleB).map
      (fun r => r.avg_miss_fraction) = [some 0, some 1] := by
  norm_num [experimentGridCapacity, runSessions, runSessionsAux,
    getDepartureTimes, sessionSlice, dataB, paramsBBase, oracleB, pyDiv,
    emsObjective, colPrice, pointBSmall, pointBBig, List.range_succ,
    List.range_zero]

/-- Counterexample for C8, in two parts.  Part A: on `dataA`, the session
model is infeasible at `Qg_max = 10` (so a correct solver reports a
non-optimal status and the session contributes zero) while at `Qg_max = 2000`
it has optimal value 1000, so the reported total cost increases from 0 to
1000 when the grid limit is relaxed.  Part B: on `dataB`, both models solve
to optimality, but every optimal point has `gamma = 0` at `Qg_max = 50` and
`gamma = 50` at `Qg_max = 200`, so the average miss fraction computed by
`experiment_grid_capacity` increases from 0 to 1 when the grid limit is
relaxed. -/
theorem qg_monotonicity_counterexample :
    (eqExceptQg paramsASmall paramsABig ∧
      paramsASmall.Qg_max < paramsABig.Qg_max) ∧
    (∀ v, ¬ Feasible dataA paramsASmall v) ∧
    OptimalPoint dataA paramsABig pointABig ∧
    (runSessions dataA paramsASmall oracleA).total_cost = 0 ∧
    (runSessions dataA paramsABig oracleA).total_cost = 1000 ∧
    ¬ ((runSessions dataA paramsABig oracleA).total_cost ≤
      (runSessions dataA paramsASmall oracleA).total_cost) ∧
    (eqExceptQg paramsBSmall paramsBBig ∧
      paramsBSmall.Qg_max < paramsBBig.Qg_max) ∧
    OptimalPoint dataB paramsBSmall pointBSmall ∧
    OptimalPoint dataB paramsBBig pointBBig ∧
    (∀ w, OptimalPoint dataB paramsBSmall w → w.gamma = 0) ∧
    (∀ w, OptimalPoint dataB paramsBBig w → w.gamma = 50) ∧
    (experimentGridCapacity dataB paramsBBase [50, 200] oracleB).map
      (fun r => r.avg_miss_fraction) = [some 0, some 1] ∧
    ¬ ((1:ℚ) ≤ 0) := by
  refine ⟨⟨?_, ?_⟩, dataA_small_infeasible, optimalPoint_pointABig,
    runA_small_cost, runA_big_cost, ?_, ⟨?_, ?_⟩, optimalPoint_pointBSmall,
    optimalPoint_pointBBig, forced_gamma_small, forced_gamma_big,
    gridB_fractions, by norm_num⟩
  · norm_num [eqExceptQg, paramsASmall, paramsABig]
  · norm_num [paramsASmall, paramsABig]
  · rw [runA_small_cost, runA_big_cost]; norm_num
  · norm_num [eqExceptQg, paramsBSmall, paramsBBig, paramsBBase]
  · norm_num [paramsBSmall, paramsBBig, paramsBBase]

theorem feasible_zeroW8 : Feasible dataW2 paramsW8 zeroVars :=
  feasible_mono_Qg dataW2 paramsW5 paramsW8 zeroVars
    (by norm_num [eqExceptQg, paramsW5, paramsW8])
    (by norm_num [paramsW5, paramsW8]) feasible_zeroW5

theorem optimalPoint_zeroVars_W8 : OptimalPoint dataW2 paramsW8 zeroVars := by
  refine ⟨feasible_zeroW8, ?_⟩
  intro w hw
  have h1 : emsObjective dataW2 paramsW8 zeroVars =
      (0 * (0:ℚ) + 0) + 1 * 0 := rfl
  have h2 : emsObjective dataW2 paramsW8 w =
      (0 * w.g 0 + 0) + 1 * w.gamma := rfl
  rw [h1, h2]
  linarith [hw.gamma_lb]

theorem sessionSlices_dataW2 : sessionSlices dataW2 = [dataW2] := rfl

/-- Witness for C8: with the grid limit relaxed from 535 to 600 and a solver
returning the optimal all-zero point for the single session under both
parameter sets, the relaxed run costs no more. -/
theorem total_cost_monotone_in_qg_when_optimal_witness :
    (eqExceptQg paramsW5 paramsW8 ∧ paramsW5.Qg_max ≤ paramsW8.Qg_max ∧
      (∀ s ∈ sessionSlices dataW2, (oracleW8 s paramsW5).status = 2 ∧
        OptimalPoint s paramsW5 (oracleW8 s paramsW5).point) ∧
      (∀ s ∈ sessionSlices dataW2, (oracleW8 s paramsW8).status = 2 ∧
        OptimalPoint s paramsW8 (oracleW8 s paramsW8).point)) ∧
    (runSessions dataW2 paramsW8 oracleW8).total_cost ≤
      (runSessions dataW2 paramsW5 oracleW8).total_cost := by
  have heq : eqExceptQg paramsW5 paramsW8 := by
    norm_num [eqExceptQg, paramsW5, paramsW8]
  have hle : paramsW5.Qg_max ≤ paramsW8.Qg_max := by
    norm_num [paramsW5, paramsW8]
  have h1 : ∀ s ∈ sessionSlices dataW2, (oracleW8 s paramsW5).status = 2 ∧
      OptimalPoint s paramsW5 (oracleW8 s paramsW5).point := by
    intro s hs
    rw [sessionSlices_dataW2] at hs
    simp only [List.mem_singleton] at hs
    subst hs
    exact ⟨rfl, optimalPoint_zeroVars_W5⟩
  have h2 : ∀ s ∈ sessionSlices dataW2, (oracleW8 s paramsW8).status = 2 ∧
      OptimalPoint s paramsW8 (oracleW8 s paramsW8).point := by
    intro s hs
    rw [sessionSlices_dataW2] at hs
    simp only [List.mem_singleton] at hs
    subst hs
    exact ⟨rfl, optimalPoint_zeroVars_W8⟩
  exact ⟨⟨heq, hle, h1, h2⟩,
    total_cost_monotone_in_qg_when_optimal dataW2 paramsW5 paramsW8 oracleW8
      oracleW8 heq hle h1 h2⟩
